import Mathlib

/-!
# FitCRM (`js/app.js`) — a shallow embedding and verification

This file embeds the data-management core of the FitCRM browser application
(client CRUD over a single `localStorage` slot, form validation, and the
exercise-suggestion service with its Fisher–Yates shuffle and static fallback
tables) as executable Lean definitions, and proves the behavioural properties
stated about it.

Modelling conventions:
* `localStorage.getItem` yields `Option String` (`none` = key absent);
  a thrown JS exception is modelled as `Except.error`.
* Ambient effects (`Date.now()`, `new Date().toISOString()`, `Math.random()`)
  are threaded as explicit parameters.
* A double produced by `Math.random()` lies in `[0,1)` and is a dyadic
  rational; we represent it by a numerator `num` and an exponent `exp`
  (value `num / 2 ^ exp`, with `num < 2 ^ exp`).
* JS strings are Lean `String`s; the form inputs involved are ASCII, so the
  UTF-16 length used by JS coincides with the character count used here.
-/

namespace FitCRM

/-! ## JavaScript string and number primitives -/

/-- JS whitespace test used by `trim`, `\s` and `parseInt`. -/
def isJsWhitespace (c : Char) : Bool := c.isWhitespace

/-- Model of `String.prototype.trim`: drop whitespace from both ends. -/
def jsTrim (s : String) : String :=
  ⟨((s.data.dropWhile isJsWhitespace).reverse.dropWhile isJsWhitespace).reverse⟩

/-- Model of `String.prototype.length` (UTF-16 units; ASCII here). -/
def jsLength (s : String) : Nat := s.data.length

/-- Model of `String.prototype.substr(start, len)`. -/
def jsSubstr (s : String) (start len : Nat) : String :=
  ⟨(s.data.drop start).take len⟩

def digitVal (c : Char) : Nat := c.toNat - 48

def isHexDigit (c : Char) : Bool :=
  c.isDigit || ('a' ≤ c && c ≤ 'f') || ('A' ≤ c && c ≤ 'F')

def hexDigitVal (c : Char) : Nat :=
  if c.isDigit then c.toNat - 48
  else if 'a' ≤ c && c ≤ 'f' then c.toNat - 87
  else c.toNat - 55

def natOfDigits (base : Nat) (f : Char → Nat) (ds : List Char) : Nat :=
  ds.foldl (fun acc c => acc * base + f c) 0

/-- Model of JS `parseInt(s)` with no radix argument: skip leading
whitespace, optional sign, optional `0x`/`0X` hexadecimal marker, then the
longest run of digits; no digits yields `NaN` (modelled as `none`).
`parseInt(null)` coerces to the string `"null"` and is `NaN`, so an absent
form value is fed in as `none` at the call sites. -/
def jsParseInt (s : String) : Option Int :=
  let cs := s.data.dropWhile isJsWhitespace
  let signed : Bool × List Char :=
    match cs with
    | '-' :: rest => (true, rest)
    | '+' :: rest => (false, rest)
    | _ => (false, cs)
  let hexed : Nat × List Char :=
    match signed.2 with
    | '0' :: x :: rest => if x = 'x' || x = 'X' then (16, rest) else (10, signed.2)
    | _ => (10, signed.2)
  let digits :=
    if hexed.1 = 16 then hexed.2.takeWhile isHexDigit
    else hexed.2.takeWhile Char.isDigit
  if digits.isEmpty then none
  else
    let n := natOfDigits hexed.1 (if hexed.1 = 16 then hexDigitVal else digitVal) digits
    some (if signed.1 then -(n : Int) else (n : Int))

/-! ## JSON values and `JSON.parse`

`getClients` hands the stored blob straight to `JSON.parse`, so we embed a
JSON parser over the grammar of `JSON.parse`.  A numeric literal is kept in
component form (sign, integer digits, fraction digits, exponent) instead of
being evaluated to a double; no claim inspects numeric values. -/

structure JNumber where
  neg : Bool
  intPart : List Nat
  fracPart : List Nat
  expPart : Int
deriving DecidableEq, Repr

inductive Json where
  | jnull : Json
  | jbool : Bool → Json
  | jnum : JNumber → Json
  | jstr : String → Json
  | jarr : List Json → Json
  | jobj : List (String × Json) → Json
deriving Inhabited, Repr

/-- JSON insignificant whitespace (space, tab, line feed, carriage return). -/
def skipWs : List Char → List Char
  | c :: cs => if c = ' ' || c = '\t' || c = '\n' || c = '\r' then skipWs cs else c :: cs
  | [] => []

/-- One escape sequence after a backslash inside a JSON string.  A `\uXXXX`
escape is mapped through `Char.ofNat` (a lone surrogate, which Lean's `Char`
cannot hold, degrades to the null character — irrelevant to every claim). -/
def escChar (e : Char) (rest : List Char) : Option (Char × List Char) :=
  if e = '"' then some ('"', rest)
  else if e = '\\' then some ('\\', rest)
  else if e = '/' then some ('/', rest)
  else if e = 'b' then some ('\x08', rest)
  else if e = 'f' then some ('\x0c', rest)
  else if e = 'n' then some ('\n', rest)
  else if e = 'r' then some ('\r', rest)
  else if e = 't' then some ('\t', rest)
  else if e = 'u' then
    match rest with
    | h1 :: h2 :: h3 :: h4 :: rest1 =>
      if isHexDigit h1 && isHexDigit h2 && isHexDigit h3 && isHexDigit h4 then
        some (Char.ofNat
          (((hexDigitVal h1 * 16 + hexDigitVal h2) * 16 + hexDigitVal h3) * 16 + hexDigitVal h4),
          rest1)
      else none
    | _ => none
  else none

/-- JSON string body, after the opening quote; fuel bounds the recursion. -/
def parseStringRest : Nat → List Char → Option (String × List Char)
  | 0, _ => none
  | fuel + 1, cs =>
    match cs with
    | '"' :: rest => some ("", rest)
    | '\\' :: e :: rest =>
      match escChar e rest with
      | some (c, rest1) => (parseStringRest fuel rest1).map fun p => (⟨c :: p.1.data⟩, p.2)
      | none => none
    | c :: rest =>
      if c.toNat < 32 then none
      else (parseStringRest fuel rest).map fun p => (⟨c :: p.1.data⟩, p.2)
    | [] => none

/-- Optional fraction part `.[0-9]+` of a JSON number. -/
def parseFracPart (cs : List Char) : Option (List Nat × List Char) :=
  match cs with
  | '.' :: r =>
    let fd := r.takeWhile Char.isDigit
    if fd.isEmpty then none else some (fd.map digitVal, r.dropWhile Char.isDigit)
  | _ => some ([], cs)

/-- Optional exponent part `[eE][+-]?[0-9]+` of a JSON number. -/
def parseExpPart (cs : List Char) : Option (Int × List Char) :=
  match cs with
  | c :: r =>
    if c = 'e' || c = 'E' then
      let signed : Bool × List Char :=
        match r with
        | '-' :: r2 => (true, r2)
        | '+' :: r2 => (false, r2)
        | _ => (false, r)
      let ed := signed.2.takeWhile Char.isDigit
      if ed.isEmpty then none
      else
        let n : Int := (natOfDigits 10 digitVal ed : Nat)
        some (if signed.1 then -n else n, signed.2.dropWhile Char.isDigit)
    else some (0, cs)
  | [] => some (0, [])

/-- A JSON numeric literal: `-?(0|[1-9][0-9]*)(\.[0-9]+)?([eE][+-]?[0-9]+)?`. -/
def parseNumber (cs : List Char) : Option (Json × List Char) :=
  let signed : Bool × List Char :=
    match cs with
    | '-' :: r => (true, r)
    | _ => (false, cs)
  let intDigits := signed.2.takeWhile Char.isDigit
  let cs2 := signed.2.dropWhile Char.isDigit
  if intDigits.isEmpty then none
  else if 1 < intDigits.length ∧ intDigits.headD '1' = '0' then none
  else
    match parseFracPart cs2 with
    | none => none
    | some (frac, cs3) =>
      match parseExpPart cs3 with
      | none => none
      | some (ex, cs4) =>
        some (.jnum ⟨signed.1, intDigits.map digitVal, frac, ex⟩, cs4)

mutual

/-- A JSON value (leading whitespace allowed); fuel bounds nesting. -/
def parseValue : Nat → List Char → Option (Json × List Char)
  | 0, _ => none
  | fuel + 1, cs =>
    match skipWs cs with
    | 'n' :: 'u' :: 'l' :: 'l' :: rest => some (.jnull, rest)
    | 't' :: 'r' :: 'u' :: 'e' :: rest => some (.jbool true, rest)
    | 'f' :: 'a' :: 'l' :: 's' :: 'e' :: rest => some (.jbool false, rest)
    | '"' :: rest => (parseStringRest fuel rest).map fun p => (.jstr p.1, p.2)
    | '[' :: rest =>
      (match skipWs rest with
       | ']' :: rest1 => some (.jarr [], rest1)
       | _ => parseArrayTail fuel rest [])
    | '\x7b' :: rest =>
      (match skipWs rest with
       | '\x7d' :: rest1 => some (.jobj [], rest1)
       | _ => parseObjectTail fuel rest [])
    | rest => parseNumber rest

/-- Comma-separated values closing with `]`, after at least one is pending. -/
def parseArrayTail : Nat → List Char → List Json → Option (Json × List Char)
  | 0, _, _ => none
  | fuel + 1, cs, acc =>
    match parseValue fuel cs with
    | some (v, rest) =>
      (match skipWs rest with
       | ',' :: rest1 => parseArrayTail fuel rest1 (acc ++ [v])
       | ']' :: rest1 => some (.jarr (acc ++ [v]), rest1)
       | _ => none)
    | none => none

/-- Comma-separated `"key": value` members closing with a right brace. -/
def parseObjectTail : Nat → List Char → List (String × Json) → Option (Json × List Char)
  | 0, _, _ => none
  | fuel + 1, cs, acc =>
    match skipWs cs with
    | '"' :: rest =>
      (match parseStringRest fuel rest with
       | some (key, rest1) =>
         (match skipWs rest1 with
          | ':' :: rest2 =>
            (match parseValue fuel rest2 with
             | some (v, rest3) =>
               (match skipWs rest3 with
                | ',' :: rest4 => parseObjectTail fuel rest4 (acc ++ [(key, v)])
                | '\x7d' :: rest4 => some (.jobj (acc ++ [(key, v)]), rest4)
                | _ => none)
             | none => none)
          | _ => none)
       | none => none)
    | _ => none

end

/-- Model of `JSON.parse(s)`: one JSON value, then only trailing whitespace.
The fuel `2 * length + 4` dominates every chain of recursive calls, each of
which consumes input. -/
def jsonParse (s : String) : Option Json :=
  match parseValue (2 * s.data.length + 4) s.data with
  | some (v, rest) => if skipWs rest = [] then some v else none
  | none => none

/-! ## Persistence Adapter (`getClients`, storage-blob level)

```js
function getClients() {
    const data = localStorage.getItem(STORAGE_KEY);
    return data ? JSON.parse(data) : [];
}
```

`storage` is the current content of the `fitcrm_clients` slot (`none` =
absent).  JS truthiness makes the empty string take the `[]` branch as well;
there is no `try`/`catch`, so a `JSON.parse` failure propagates as a thrown
`SyntaxError`, modelled by `Except.error`.  The parsed value is returned
as-is, whatever its shape. -/
def getClients (storage : Option String) : Except String Json :=
  match storage with
  | none => Except.ok (Json.jarr [])
  | some data =>
    if data = "" then Except.ok (Json.jarr [])
    else
      match jsonParse data with
      | some v => Except.ok v
      | none => Except.error "SyntaxError: JSON.parse unexpected input"

/-! ## Identifier Generator

```js
function generateId() {
    return 'client_' + Date.now() + '_' + Math.random().toString(36).substr(2, 9);
}
```

`Math.random()` yields a double in `[0,1)`, i.e. a dyadic rational
`num / 2 ^ exp` with `num < 2 ^ exp`.  `Number.prototype.toString(36)` prints
`"0"` for zero and otherwise `"0."` followed by the base-36 fractional
expansion, which terminates for every dyadic rational; `exp` steps of
fuel are more than enough, since the fraction is exhausted after at most
`⌈exp / 2⌉` digits. -/
def base36FracDigitsAux : Nat → Nat → Nat → List Nat
  | 0, _, _ => []
  | fuel + 1, num, exp =>
    if num = 0 then []
    else
      let t := num * 36
      t / 2 ^ exp :: base36FracDigitsAux fuel (t % 2 ^ exp) exp

/-- Digit characters `0-9a-z` used by `Number.prototype.toString(36)`. -/
def base36DigitChar (d : Nat) : Char :=
  if d < 10 then Char.ofNat (48 + d) else Char.ofNat (87 + d)

/-- Model of `Math.random().toString(36)` for the double `num / 2 ^ exp`. -/
def jsNumToStringBase36 (num exp : Nat) : String :=
  if num = 0 then "0"
  else ⟨'0' :: '.' :: (base36FracDigitsAux exp num exp).map base36DigitChar⟩

/-- The random id suffix `Math.random().toString(36).substr(2, 9)`. -/
def randBase36Suffix (num exp : Nat) : String :=
  jsSubstr (jsNumToStringBase36 num exp) 2 9

/-- Embedding of `generateId` at `Date.now() = now` and
`Math.random() = num / 2 ^ exp`. -/
def generateId (now num exp : Nat) : String :=
  "client_" ++ toString now ++ "_" ++ randBase36Suffix num exp

/-! ## Client data model

The persisted record shape documented in the README and produced by
`addClient` / `updateClient`.  `updatedAt` is absent until the first update,
hence `Option`.  In this typed model every stored client carries its
`exerciseHistory` field (as `addClient` and the documented schema guarantee),
so the defensive `client.exerciseHistory || []` of `addExerciseEntry` is the
field itself. -/

structure ExerciseEntry where
  id : String
  date : String
  title : String
  notes : String
  tags : List String
deriving DecidableEq, Repr

structure Client where
  id : String
  fullName : String
  age : Int
  gender : String
  email : String
  phone : String
  goal : String
  goalText : String
  startDate : String
  createdAt : String
  updatedAt : Option String
  exerciseHistory : List ExerciseEntry
deriving DecidableEq, Repr

/-- The field map built by `getFormData` and handed to `addClient`:
`fullName, age, gender, email, phone, goal, goalText, startDate` (no `id`,
`createdAt` or `exerciseHistory` keys, so the spread order in `addClient`
is immaterial). -/
structure ClientFields where
  fullName : String
  age : Int
  gender : String
  email : String
  phone : String
  goal : String
  goalText : String
  startDate : String
deriving DecidableEq, Repr

/-- The entry fields handed to `addExerciseEntry` (`id` is generated there). -/
structure EntryFields where
  date : String
  title : String
  notes : String
  tags : List String
deriving DecidableEq, Repr

/-- A partial field map for `updateClient`'s shallow merge
`{...clients[index], ...updatedData, updatedAt}`: `some` = key present
(overwrites), `none` = key absent (field retained).  No caller in the source
passes `id`, `createdAt` or `updatedAt` keys, so those are not part of the
update surface. -/
structure UpdateData where
  fullName : Option String := none
  age : Option Int := none
  gender : Option String := none
  email : Option String := none
  phone : Option String := none
  goal : Option String := none
  goalText : Option String := none
  startDate : Option String := none
  exerciseHistory : Option (List ExerciseEntry) := none
deriving DecidableEq, Repr

/-- The shallow merge `{...c, ...u, updatedAt: new Date().toISOString()}`. -/
def mergeClient (c : Client) (u : UpdateData) (nowIso : String) : Client :=
  { id := c.id
    fullName := u.fullName.getD c.fullName
    age := u.age.getD c.age
    gender := u.gender.getD c.gender
    email := u.email.getD c.email
    phone := u.phone.getD c.phone
    goal := u.goal.getD c.goal
    goalText := u.goalText.getD c.goalText
    startDate := u.startDate.getD c.startDate
    createdAt := c.createdAt
    updatedAt := some nowIso
    exerciseHistory := u.exerciseHistory.getD c.exerciseHistory }

/-! ## Client Repository

Each JS operation begins with `getClients()` (the parsed collection) and
ends with `saveClients(...)` (the new collection) or no write at all, so the
state threaded here is the parsed content of the storage slot, a
`List Client`; the returned list is exactly what `saveClients` persists.
Ambient effects appear as the leading parameters. -/

/-- Embedding of `addClient(clientData)`: build the new record (fresh id, `createdAt`
stamp, empty history), push it, save, return it.  Result: (returned client,
collection written by `saveClients`). -/
def addClient (now num exp : Nat) (nowIso : String) (clientData : ClientFields)
    (clients : List Client) : Client × List Client :=
  let newClient : Client :=
    { id := generateId now num exp
      fullName := clientData.fullName
      age := clientData.age
      gender := clientData.gender
      email := clientData.email
      phone := clientData.phone
      goal := clientData.goal
      goalText := clientData.goalText
      startDate := clientData.startDate
      createdAt := nowIso
      updatedAt := none
      exerciseHistory := [] }
  (newClient, clients ++ [newClient])

/-- Embedding of `updateClient(id, updatedData)`: `findIndex` by id; `-1` (here: index
past the end, so the lookup yields `none`) returns `null` with no write;
otherwise replace the record at that index by the shallow merge, save, and
return it. -/
def updateClient (nowIso : String) (id : String) (updatedData : UpdateData)
    (clients : List Client) : Option Client × List Client :=
  let index := clients.findIdx fun c => c.id == id
  match clients.get? index with
  | none => (none, clients)
  | some c =>
    let updated := mergeClient c updatedData nowIso
    (some updated, clients.set index updated)

/-- Embedding of `deleteClient(id)`: filter out matching ids; if nothing was removed
return `false` without writing, else save the filtered list and return
`true`. -/
def deleteClient (id : String) (clients : List Client) : Bool × List Client :=
  let filtered := clients.filter fun c => c.id != id
  if filtered.length = clients.length then (false, clients)
  else (true, filtered)

/-- Embedding of `getClientById(id)`: `find(...) || null`. -/
def getClientById (id : String) (clients : List Client) : Option Client :=
  clients.find? fun c => c.id == id

/-- Embedding of `addExerciseEntry(clientId, exerciseData)`: look the client up, push a
newly-identified entry onto its history, and delegate to `updateClient`;
a missing client returns `null` with no write. -/
def addExerciseEntry (now num exp : Nat) (nowIso : String) (clientId : String)
    (exerciseData : EntryFields) (clients : List Client) :
    Option Client × List Client :=
  match getClientById clientId clients with
  | none => (none, clients)
  | some client =>
    let exerciseHistory := client.exerciseHistory ++
      [{ id := generateId now num exp
         date := exerciseData.date
         title := exerciseData.title
         notes := exerciseData.notes
         tags := exerciseData.tags }]
    updateClient nowIso clientId { exerciseHistory := some exerciseHistory } clients

/-! ## Form Validator -/

/-- Embedding of `isValidEmail`: the regex `^[^\s@]+@[^\s@]+\.[^\s@]+$`, i.e. no
whitespace anywhere, exactly one `@` with a non-empty part before it, and
after the `@` a dot that is neither the first nor the last character of the
domain part. -/
def isValidEmail (s : String) : Bool :=
  let cs := s.data
  let localPart := cs.takeWhile fun c => c ≠ '@'
  let domainPart := (cs.dropWhile fun c => c ≠ '@').drop 1
  cs.all (fun c => !isJsWhitespace c) &&
    cs.count '@' = 1 &&
    !localPart.isEmpty &&
    ((domainPart.drop 1).dropLast.contains '.')

/-- Embedding of `isValidPhone`: the regex `^[\d\s\-\(\)\+]{7,20}$`. -/
def isValidPhone (s : String) : Bool :=
  s.data.all (fun c =>
      c.isDigit || isJsWhitespace c || c = '-' || c = '(' || c = ')' || c = '+') &&
    7 ≤ s.data.length && s.data.length ≤ 20

/-- The raw form values as read by `formData.get(name)`: `none` models a
field absent from the form (JS `null`). -/
structure FormVals where
  fullName : Option String := none
  age : Option String := none
  gender : Option String := none
  email : Option String := none
  phone : Option String := none
  goal : Option String := none
  startDate : Option String := none
deriving DecidableEq, Repr

/-- The `errors` object built by `validateClientForm`: one optional message
per validated field (`some` = key present in the JS object). -/
structure FormErrors where
  fullName : Option String := none
  age : Option String := none
  gender : Option String := none
  email : Option String := none
  phone : Option String := none
  goal : Option String := none
  startDate : Option String := none
deriving DecidableEq, Repr

/-- The key count `Object.keys(errors).length`. -/
def FormErrors.keyCount (e : FormErrors) : Nat :=
  [e.fullName, e.age, e.gender, e.email, e.phone, e.goal, e.startDate].countP
    Option.isSome

structure ValidationResult where
  isValid : Bool
  errors : FormErrors
deriving DecidableEq, Repr

/-- The `fullName` rule: `formData.get('fullName')?.trim()` is falsy
(absent field or empty after trim) → required; else length ≥ 2. -/
def fullNameRule (v : Option String) : Option String :=
  match v.map jsTrim with
  | none => some "Full name is required"
  | some n =>
    if n = "" then some "Full name is required"
    else if jsLength n < 2 then some "Name must be at least 2 characters"
    else none

/-- The `age` rule: `parseInt` of the raw value (an absent field coerces to
`"null"`, hence `NaN`); `!age || isNaN(age)` makes both `NaN` and a parsed
`0` report the required message, then the 1–120 range is checked. -/
def ageRule (v : Option String) : Option String :=
  match v.bind jsParseInt with
  | none => some "Age is required"
  | some a =>
    if a = 0 then some "Age is required"
    else if a < 1 ∨ a > 120 then some "Age must be between 1 and 120"
    else none

/-- The `gender` rule: plain falsy check, no trim. -/
def genderRule (v : Option String) : Option String :=
  if v.getD "" = "" then some "Please select a gender" else none

/-- The `email` rule: trimmed falsy check, then the email regex. -/
def emailRule (v : Option String) : Option String :=
  match v.map jsTrim with
  | none => some "Email is required"
  | some e =>
    if e = "" then some "Email is required"
    else if !isValidEmail e then some "Please enter a valid email address"
    else none

/-- The `phone` rule: trimmed falsy check, then the phone regex. -/
def phoneRule (v : Option String) : Option String :=
  match v.map jsTrim with
  | none => some "Phone number is required"
  | some p =>
    if p = "" then some "Phone number is required"
    else if !isValidPhone p then some "Please enter a valid phone number"
    else none

/-- The `goal` rule: plain falsy check. -/
def goalRule (v : Option String) : Option String :=
  if v.getD "" = "" then some "Please select a fitness goal" else none

/-- The `startDate` rule: plain falsy check. -/
def startDateRule (v : Option String) : Option String :=
  if v.getD "" = "" then some "Membership start date is required" else none

/-- Embedding of `validateClientForm`: the seven field rules of the source
run independently (no cross-field short-circuiting), each recording at most
one message under its field name; `isValid` is
`Object.keys(errors).length === 0`. -/
def validateClientForm (form : FormVals) : ValidationResult :=
  let errors : FormErrors :=
    { fullName := fullNameRule form.fullName
      age := ageRule form.age
      gender := genderRule form.gender
      email := emailRule form.email
      phone := phoneRule form.phone
      goal := goalRule form.goal
      startDate := startDateRule form.startDate }
  { isValid := errors.keyCount = 0, errors := errors }

/-! ## Exercise Suggestion Service -/

/-- A suggested exercise as rendered: `category` is `null` unless the
catalog record carries a truthy category name (the static fallback entries
have no category key, modelled as `none`). -/
structure SuggestedExercise where
  name : String
  category : Option String
  description : String
deriving DecidableEq, Repr

/-- One `translations` array element of a Wger catalog record; `name` and
`description` may be absent or null (`|| ''` guards in the source). -/
structure Translation where
  language : Nat
  name : Option String
  description : Option String
deriving DecidableEq, Repr

structure ApiCategory where
  name : Option String
deriving DecidableEq, Repr

/-- One element of `data.results`.  `translations := none` models a record
whose `translations` is missing or not an array; likewise `category := none`
models a missing/non-object `category`. -/
structure ApiExercise where
  translations : Option (List Translation)
  category : Option ApiCategory
deriving DecidableEq, Repr

/-- The decoded response body: `results := none` models a body whose
`results` is missing or not an array. -/
structure ApiData where
  results : Option (List ApiExercise)
deriving DecidableEq, Repr

/-- The loop body over `data.results`: resolve name/description from the
English translation (language 2), fall back to the first translation when
the English name is falsy, `continue` (here: `none`) when no name resolves,
then strip markup, truncate to 200 units, or substitute the placeholder.
`strip` is the DOM-based `stripHtml` collaborator, taken as a parameter. -/
def normalizeExercise (strip : String → String) (ex : ApiExercise) :
    Option SuggestedExercise :=
  let resolved : String × String :=
    match ex.translations with
    | none => ("", "")
    | some ts =>
      let fromEnglish : String × String :=
        match ts.find? fun t => t.language = 2 with
        | some et => (jsTrim (et.name.getD ""), et.description.getD "")
        | none => ("", "")
      if fromEnglish.1 = "" then
        match ts with
        | t0 :: _ => (jsTrim (t0.name.getD ""), t0.description.getD "")
        | [] => fromEnglish
      else fromEnglish
  if resolved.1 = "" then none
  else
    let description :=
      if resolved.2 = "" then "A great exercise for your fitness routine."
      else jsSubstr (strip resolved.2) 0 200
    let categoryName : Option String :=
      match ex.category with
      | some cat =>
        (match cat.name with
         | some n => if n = "" then none else some n
         | none => none)
      | none => none
    some { name := resolved.1, category := categoryName, description := description }

/-- The `allExercises` pool accumulated by the loop (push ≈ `filterMap`). -/
def normalizePool (strip : String → String) (data : ApiData) :
    List SuggestedExercise :=
  (data.results.getD []).filterMap (normalizeExercise strip)

/-- The swap `[shuffled[i], shuffled[j]] = [shuffled[j], shuffled[i]]` on a list: a
swap of two positions.  Out-of-range indices leave the list unchanged (the
loop below only ever produces in-range indices). -/
def listSwap (l : List α) (i j : Nat) : List α :=
  match l.get? i, l.get? j with
  | some a, some b => (l.set i b).set j a
  | _, _ => l

/-- The `for (let i = length - 1; i > 0; i--)` loop of `shuffleArray`:
at counter `i` swap positions `i` and `randIdx i`, where `randIdx i` models
`Math.floor(Math.random() * (i + 1))` (hence `randIdx i ≤ i`). -/
def fisherYatesAux (randIdx : Nat → Nat) : Nat → List α → List α
  | 0, l => l
  | i + 1, l => fisherYatesAux randIdx i (listSwap l (i + 1) (randIdx (i + 1)))

/-- Embedding of `shuffleArray` (Fisher–Yates over a copy of the input). -/
def shuffleArray (randIdx : Nat → Nat) (l : List α) : List α :=
  fisherYatesAux randIdx (l.length - 1) l

/-- The static goal-keyed fallback tables of `getFallbackExercises`. -/
def fallbackWeightLoss : List SuggestedExercise :=
  [⟨"Jumping Jacks", none,
    "Full body cardio exercise. Jump while spreading legs and raising arms overhead."⟩,
   ⟨"Burpees", none, "High-intensity exercise combining squat, plank, and jump."⟩,
   ⟨"Mountain Climbers", none,
    "Core and cardio exercise in plank position with alternating knee drives."⟩,
   ⟨"High Knees", none, "Running in place while lifting knees to hip level."⟩,
   ⟨"Jump Rope", none, "Classic cardio exercise for endurance and coordination."⟩]

def fallbackMuscleGain : List SuggestedExercise :=
  [⟨"Push-ups", none, "Upper body exercise targeting chest, shoulders, and triceps."⟩,
   ⟨"Squats", none, "Lower body exercise for quadriceps, hamstrings, and glutes."⟩,
   ⟨"Lunges", none, "Unilateral leg exercise for strength and balance."⟩,
   ⟨"Plank", none, "Isometric core exercise for stability and strength."⟩,
   ⟨"Dumbbell Rows", none, "Back exercise targeting lats and biceps."⟩]

def fallbackGeneralFitness : List SuggestedExercise :=
  [⟨"Walking", none, "Low-impact cardio for overall health and endurance."⟩,
   ⟨"Stretching", none, "Flexibility exercises for mobility and injury prevention."⟩,
   ⟨"Bodyweight Squats", none, "Functional movement for lower body strength."⟩,
   ⟨"Plank Hold", none, "Core stability exercise for posture and strength."⟩,
   ⟨"Arm Circles", none, "Shoulder mobility and warm-up exercise."⟩]

/-- Embedding of `getFallbackExercises(goal)`: `exercises[goal] || exercises['General
Fitness']`.  `goal = none` models the JS `null` default. -/
def getFallbackExercises (goal : Option String) : List SuggestedExercise :=
  if goal = some "Weight Loss" then fallbackWeightLoss
  else if goal = some "Muscle Gain" then fallbackMuscleGain
  else fallbackGeneralFitness

/-- The three ways the `try` block can be entered/left around the network
call: a rejected fetch, a non-ok status (the code throws on `!response.ok`),
or a decoded body. -/
inductive FetchOutcome where
  | networkError : FetchOutcome
  | httpError : Nat → FetchOutcome
  | success : ApiData → FetchOutcome

structure SuggestResult where
  success : Bool
  exercises : List SuggestedExercise
  error : Option String
deriving DecidableEq, Repr

/-- Embedding of `fetchSuggestedExercises(goal, limit)`.  The `catch` block
(reached on network failure, non-ok status, or the `throw` on an empty
normalized pool) shuffles the fallback table and reports `success: false`
with the user-facing message; otherwise the shuffled pool's first `limit`
entries are returned with `success: true`.  A result is returned on every
path. -/
def fetchSuggestedExercises (strip : String → String) (randIdx : Nat → Nat)
    (outcome : FetchOutcome) (goal : Option String) (limit : Nat) :
    SuggestResult :=
  let fallbackResult : SuggestResult :=
    { success := false
      exercises := (shuffleArray randIdx (getFallbackExercises goal)).take limit
      error := some "Unable to load suggested exercises right now." }
  match outcome with
  | .networkError => fallbackResult
  | .httpError _ => fallbackResult
  | .success data =>
    let allExercises := normalizePool strip data
    if allExercises.length > 0 then
      { success := true
        exercises := (shuffleArray randIdx allExercises).take limit
        error := none }
    else fallbackResult

/-! ## Concrete sample data (used by closed witnesses and counterexamples) -/

/-- A stored client whose id is exactly `generateId 5 1 1` (a collision
witness: `Date.now() = 5`, `Math.random() = 1/2`). -/
def sampleClient : Client :=
  { id := "client_5_i", fullName := "Sara Ahmed", age := 28, gender := "Female",
    email := "sara.ahmed@example.com", phone := "+20 10 1234 5678",
    goal := "Weight Loss", goalText := "", startDate := "2025-09-01",
    createdAt := "2025-09-01T00:00:00.000Z", updatedAt := none,
    exerciseHistory := [⟨"ex_1", "2025-09-12", "HIIT Exercise",
      "High intensity interval training", ["Burpees", "Jump Rope"]⟩] }

def sampleClient2 : Client :=
  { id := "client_7_q", fullName := "Omar Hassan", age := 32, gender := "Male",
    email := "omar.hassan@example.com", phone := "+20 12 2345 6789",
    goal := "Muscle Gain", goalText := "", startDate := "2025-08-15",
    createdAt := "2025-08-15T00:00:00.000Z", updatedAt := none,
    exerciseHistory := [] }

def sampleFields : ClientFields :=
  { fullName := "John Doe", age := 30, gender := "Male",
    email := "john@example.com", phone := "1234567", goal := "Muscle Gain",
    goalText := "", startDate := "2025-01-15" }

def sampleEntryFields : EntryFields :=
  { date := "2025-01-20", title := "Upper Body Workout",
    notes := "Focus on chest and shoulders", tags := ["Push-ups", "Rows"] }

/-- The first concrete validator input of the spec (all fields valid). -/
def validFormVals : FormVals :=
  { fullName := some "Al", age := some "30", gender := some "Male",
    email := some "a@b.co", phone := some "1234567",
    goal := some "Weight Loss", startDate := some "2025-01-01" }

/-- The second concrete validator input of the spec (`gender`, `goal`,
`startDate` absent from the submitted values). -/
def invalidFormVals : FormVals :=
  { fullName := some "A", age := some "200", email := some "bad",
    phone := some "12" }

/-- A catalog response normalizing to five distinct suggested exercises
(the last record has no usable translations and is skipped). -/
def sampleApiData : ApiData :=
  { results := some
      [{ translations := some [⟨2, some "Squat", some ""⟩],
         category := some ⟨some "Legs"⟩ },
       { translations := some [⟨2, some "Bench Press", none⟩],
         category := none },
       { translations := some [⟨1, some "Kniebeuge", some "desc"⟩,
                               ⟨2, some "Deadlift", some "Lift"⟩],
         category := some ⟨none⟩ },
       { translations := some [⟨4, some "Crunch", some "Core work"⟩],
         category := some ⟨some ""⟩ },
       { translations := some [⟨2, some " Row ", some "Pull"⟩],
         category := none },
       { translations := none, category := none }] }

/-- The collection invariant: every stored `Client.id` is unique. -/
def idsNodup (clients : List Client) : Prop :=
  (clients.map Client.id).Nodup

/-! ## Helper lemmas -/

theorem set_get?_self {α : Type _} :
    ∀ (l : List α) (i : Nat) (a : α), l.get? i = some a → l.set i a = l
  | [], _, _, h => by simp at h
  | x :: xs, 0, a, h => by
    simp only [List.get?_cons_zero, Option.some.injEq] at h
    simp [h]
  | x :: xs, i + 1, a, h => by
    simp only [List.get?_cons_succ] at h
    simp [List.set_cons_succ, set_get?_self xs i a h]

theorem count_set {α : Type _} [DecidableEq α] :
    ∀ (l : List α) (i : Nat) (b c x : α), l.get? i = some c →
      (l.set i b).count x + (if c = x then 1 else 0) =
        l.count x + (if b = x then 1 else 0)
  | [], _, _, _, _, h => by simp at h
  | y :: ys, 0, b, c, x, h => by
    simp only [List.get?_cons_zero, Option.some.injEq] at h
    subst h
    simp only [List.set_cons_zero, List.count_cons, beq_iff_eq]
    split_ifs <;> omega
  | y :: ys, i + 1, b, c, x, h => by
    simp only [List.get?_cons_succ] at h
    have ih := count_set ys i b c x h
    simp only [List.set_cons_succ, List.count_cons, beq_iff_eq]
    split_ifs at ih ⊢ <;> omega

theorem listSwap_perm {α : Type _} (l : List α) (i j : Nat) :
    (listSwap l i j).Perm l := by
  classical
  unfold listSwap
  cases hi : l.get? i with
  | none => exact List.Perm.refl _
  | some a =>
    cases hj : l.get? j with
    | none => exact List.Perm.refl _
    | some b =>
      show ((l.set i b).set j a).Perm l
      by_cases hij : i = j
      · subst hij
        have hab : a = b := by rw [hi] at hj; exact Option.some.inj hj
        subst hab
        rw [List.set_set, set_get?_self l i a hi]
      · rw [List.perm_iff_count]
        intro x
        have h1 : (l.set i b).get? j = some b := by
          rw [List.get?_eq_getElem?, List.getElem?_set_ne hij,
            ← List.get?_eq_getElem?]
          exact hj
        have e1 := count_set (l.set i b) j a b x h1
        have e2 := count_set l i b a x hi
        split_ifs at e1 e2 <;> omega

theorem fisherYatesAux_perm {α : Type _} (randIdx : Nat → Nat) :
    ∀ (n : Nat) (l : List α), (fisherYatesAux randIdx n l).Perm l
  | 0, l => List.Perm.refl l
  | n + 1, l =>
    (fisherYatesAux_perm randIdx n _).trans
      (listSwap_perm l (n + 1) (randIdx (n + 1)))

/-- The shuffle is a permutation of its input, whatever the random draws. -/
theorem shuffleArray_perm {α : Type _} (randIdx : Nat → Nat) (l : List α) :
    (shuffleArray randIdx l).Perm l :=
  fisherYatesAux_perm randIdx (l.length - 1) l

theorem shuffle_take_length {α : Type _} (randIdx : Nat → Nat) (l : List α)
    (n : Nat) : ((shuffleArray randIdx l).take n).length = min n l.length := by
  rw [List.length_take, (shuffleArray_perm randIdx l).length_eq]

theorem shuffle_take_mem {α : Type _} (randIdx : Nat → Nat) (l : List α)
    (n : Nat) : ∀ x ∈ (shuffleArray randIdx l).take n, x ∈ l := by
  intro x hx
  exact (shuffleArray_perm randIdx l).mem_iff.mp
    ((List.take_sublist n _).subset hx)

theorem shuffle_take_nodup {α : Type _} (randIdx : Nat → Nat) (l : List α)
    (n : Nat) (h : l.Nodup) : ((shuffleArray randIdx l).take n).Nodup :=
  ((List.take_sublist n _).nodup ((shuffleArray_perm randIdx l).symm.nodup h))

/-- The element `findIndex` points at is exactly the `find` result: this ties
`updateClient`'s lookup to `getClientById`'s. -/
theorem get?_findIdx_eq_find? {α : Type _} (p : α → Bool) :
    ∀ l : List α, l.get? (l.findIdx p) = l.find? p
  | [] => rfl
  | x :: xs => by
    by_cases hp : p x
    · simp [List.findIdx_cons, List.find?_cons, hp]
    · have ih := get?_findIdx_eq_find? p xs
      simp only [List.get?_eq_getElem?] at ih
      simp [List.findIdx_cons, List.find?_cons, hp, ih]

/-! ## C1 — Persistence Adapter load behaviour -/

/-- C1 (counterexample): with a malformed stored blob (the single character
left brace), `getClients` does not return the empty sequence — the
`JSON.parse` failure propagates as a thrown error (there is no
`try`/`catch`), so `StorageCorruption` is not recovered by treating the
store as empty. -/
theorem getClients_malformed_not_empty :
    getClients (some "\x7b") ≠ Except.ok (Json.jarr []) ∧
    getClients (some "\x7b") =
      Except.error "SyntaxError: JSON.parse unexpected input" := by
  constructor
  · intro h
    rw [show getClients (some "\x7b") =
        Except.error "SyntaxError: JSON.parse unexpected input" from rfl] at h
    exact Except.noConfusion h
  · rfl

/-- C1 (amended): `getClients` returns the empty sequence when the stored
value is absent (or the empty string, which is falsy); when the stored value
parses, the parsed value is returned as-is; when the stored value is present,
non-empty and malformed, `getClients` throws the parse error instead of
recovering. -/
theorem getClients_spec :
    getClients none = Except.ok (Json.jarr []) ∧
    getClients (some "") = Except.ok (Json.jarr []) ∧
    (∀ s : String, s ≠ "" → ∀ v, jsonParse s = some v →
      getClients (some s) = Except.ok v) ∧
    (∀ s : String, s ≠ "" → jsonParse s = none →
      getClients (some s) =
        Except.error "SyntaxError: JSON.parse unexpected input") := by
  refine ⟨rfl, rfl, ?_, ?_⟩
  · intro s hs v hv
    simp [getClients, hs, hv]
  · intro s hs hv
    simp [getClients, hs, hv]

/-- C1 (witness): the well-formed blob `"[]"` loads as the empty array and
the malformed blob left-brace throws. -/
theorem getClients_spec_witness :
    ("[]" : String) ≠ "" ∧ jsonParse "[]" = some (Json.jarr []) ∧
    getClients (some "[]") = Except.ok (Json.jarr []) ∧
    ("\x7b" : String) ≠ "" ∧ jsonParse "\x7b" = none ∧
    getClients (some "\x7b") =
      Except.error "SyntaxError: JSON.parse unexpected input" :=
  ⟨by decide, rfl, getClients_spec.2.2.1 "[]" (by decide) (Json.jarr []) rfl,
   by decide, rfl, getClients_spec.2.2.2 "\x7b" (by decide) rfl⟩

/-! ## C9 — generateId format -/

/-- C9 (counterexample): at `Date.now() = 5` and `Math.random() = 1/2`
(`(0.5).toString(36) = "0.i"`), the generated id is `"client_5_i"` — the
random suffix is a single base-36 character, not exactly 9. -/
theorem generateId_short_suffix :
    generateId 5 1 1 = "client_5_i" ∧
    jsLength (randBase36Suffix 1 1) = 1 ∧ (1 : Nat) ≠ 9 := by
  exact ⟨rfl, rfl, by decide⟩

theorem base36FracDigitsAux_lt :
    ∀ (fuel num exp : Nat), num < 2 ^ exp →
      ∀ d ∈ base36FracDigitsAux fuel num exp, d < 36
  | 0, _, _, _, _, hd => by simp [base36FracDigitsAux] at hd
  | fuel + 1, num, exp, h, d, hd => by
    by_cases h0 : num = 0
    · simp [base36FracDigitsAux, h0] at hd
    · have hpow : 0 < 2 ^ exp := Nat.pos_pow_of_pos exp (by omega)
      simp only [base36FracDigitsAux, h0, if_false, List.mem_cons] at hd
      rcases hd with hd | hd
      · subst hd
        rw [Nat.div_lt_iff_lt_mul hpow]
        calc num * 36 < 2 ^ exp * 36 := (Nat.mul_lt_mul_right (by omega)).mpr h
          _ = 36 * 2 ^ exp := Nat.mul_comm _ _
      · exact base36FracDigitsAux_lt fuel _ exp (Nat.mod_lt _ hpow) d hd

/-- C9 (amended): every generated id has the form
`client_<millisecond-timestamp>_<suffix>` where the suffix consists of
base-36 digit characters and is at most 9 characters long (it is exactly 9
only when the base-36 expansion of the random value has at least 9
fractional digits, which `Math.random() = 1/2` shows is not guaranteed). -/
theorem generateId_format_spec (now num exp : Nat) (h : num < 2 ^ exp) :
    generateId now num exp =
      "client_" ++ toString now ++ "_" ++ randBase36Suffix num exp ∧
    jsLength (randBase36Suffix num exp) ≤ 9 ∧
    ∀ c ∈ (randBase36Suffix num exp).data, ∃ d, d < 36 ∧ c = base36DigitChar d := by
  refine ⟨rfl, ?_, ?_⟩
  · show (((jsNumToStringBase36 num exp).data.drop 2).take 9).length ≤ 9
    rw [List.length_take]
    exact min_le_left _ _
  · intro c hc
    have hc' : c ∈ (jsNumToStringBase36 num exp).data.drop 2 :=
      (List.take_sublist _ _).subset hc
    by_cases h0 : num = 0
    · rw [h0] at hc'
      rw [show (jsNumToStringBase36 0 exp).data.drop 2 = [] from rfl] at hc'
      exact absurd hc' (List.not_mem_nil c)
    · rw [show (jsNumToStringBase36 num exp).data =
          '0' :: '.' :: (base36FracDigitsAux exp num exp).map base36DigitChar by
            simp [jsNumToStringBase36, h0]] at hc'
      simp only [List.drop_succ_cons, List.drop_zero, List.mem_map] at hc'
      obtain ⟨d, hd, rfl⟩ := hc'
      exact ⟨d, base36FracDigitsAux_lt exp num exp h d hd, rfl⟩

/-- C9 (witness): the format theorem applied at `Date.now() = 1700000000000`
and `Math.random() = 3/8` (`(0.375).toString(36) = "0.dg"`). -/
theorem generateId_format_spec_witness :
    (3 : Nat) < 2 ^ 3 ∧
    (generateId 1700000000000 3 3 =
      "client_" ++ toString 1700000000000 ++ "_" ++ randBase36Suffix 3 3 ∧
    jsLength (randBase36Suffix 3 3) ≤ 9 ∧
    ∀ c ∈ (randBase36Suffix 3 3).data, ∃ d, d < 36 ∧ c = base36DigitChar d) :=
  ⟨by decide, generateId_format_spec 1700000000000 3 3 (by decide)⟩

/-! ## C2 — addClient followed by getClientById -/

theorem find?_append_fresh (clients : List Client) (c : Client)
    (h : c.id ∉ clients.map Client.id) :
    (clients ++ [c]).find? (fun x => x.id == c.id) = some c := by
  rw [List.find?_append]
  have h1 : clients.find? (fun x => x.id == c.id) = none :=
    List.find?_eq_none.mpr fun x hx hbeq =>
      h (List.mem_map.mpr ⟨x, hx, by simpa using hbeq⟩)
  rw [h1]
  simp [List.find?]

/-- C2: `addClient` builds the stored record out of exactly the supplied
fields plus the freshly generated id, the `createdAt` stamp and an empty
history, appends it to the collection (which `saveClients` persists), and
returns it; as long as the generated id is fresh (which the generator only
ensures probabilistically), `getClientById` on the returned id finds exactly
that record. -/
theorem addClient_getById_spec (now num exp : Nat) (nowIso : String)
    (fields : ClientFields) (clients : List Client)
    (hfresh : generateId now num exp ∉ clients.map Client.id) :
    (addClient now num exp nowIso fields clients).1 =
      { id := generateId now num exp, fullName := fields.fullName,
        age := fields.age, gender := fields.gender, email := fields.email,
        phone := fields.phone, goal := fields.goal,
        goalText := fields.goalText, startDate := fields.startDate,
        createdAt := nowIso, updatedAt := none, exerciseHistory := [] } ∧
    (addClient now num exp nowIso fields clients).2 =
      clients ++ [(addClient now num exp nowIso fields clients).1] ∧
    getClientById (addClient now num exp nowIso fields clients).1.id
      (addClient now num exp nowIso fields clients).2 =
      some (addClient now num exp nowIso fields clients).1 := by
  refine ⟨rfl, rfl, ?_⟩
  exact find?_append_fresh clients _ hfresh

/-- C2 (witness): adding John Doe to the empty collection and reading him
back by the returned id. -/
theorem addClient_getById_spec_witness :
    generateId 5 1 1 ∉ ([] : List Client).map Client.id ∧
    ((addClient 5 1 1 "2025-01-15T10:30:00.000Z" sampleFields []).1 =
      { id := generateId 5 1 1, fullName := sampleFields.fullName,
        age := sampleFields.age, gender := sampleFields.gender,
        email := sampleFields.email, phone := sampleFields.phone,
        goal := sampleFields.goal, goalText := sampleFields.goalText,
        startDate := sampleFields.startDate,
        createdAt := "2025-01-15T10:30:00.000Z", updatedAt := none,
        exerciseHistory := [] } ∧
    (addClient 5 1 1 "2025-01-15T10:30:00.000Z" sampleFields []).2 =
      [] ++ [(addClient 5 1 1 "2025-01-15T10:30:00.000Z" sampleFields []).1] ∧
    getClientById (addClient 5 1 1 "2025-01-15T10:30:00.000Z" sampleFields []).1.id
      (addClient 5 1 1 "2025-01-15T10:30:00.000Z" sampleFields []).2 =
      some (addClient 5 1 1 "2025-01-15T10:30:00.000Z" sampleFields []).1) :=
  ⟨by decide,
   addClient_getById_spec 5 1 1 "2025-01-15T10:30:00.000Z" sampleFields []
     (by decide)⟩

/-! ## C5 — deleteClient -/

/-- C5: `deleteClient` returns `true` exactly when some record carried the
id; afterwards `getClientById` on that id yields the not-found sentinel; and
deleting an id that is not present returns `false` and leaves the stored
collection exactly unchanged. -/
theorem deleteClient_spec (id : String) (clients : List Client) :
    ((deleteClient id clients).1 = true ↔ ∃ c ∈ clients, c.id = id) ∧
    getClientById id (deleteClient id clients).2 = none ∧
    ((¬ ∃ c ∈ clients, c.id = id) →
      (deleteClient id clients).1 = false ∧
      (deleteClient id clients).2 = clients) := by
  have hkey : ((clients.filter fun c => c.id != id).length = clients.length) ↔
      ∀ c ∈ clients, c.id ≠ id := by
    constructor
    · intro hlen c hc
      have heq : clients.filter (fun c => c.id != id) = clients :=
        (List.filter_sublist clients).eq_of_length hlen
      simpa [bne_iff_ne] using List.filter_eq_self.mp heq c hc
    · intro hall
      rw [List.filter_eq_self.mpr fun c hc => by simpa [bne_iff_ne] using hall c hc]
  by_cases hlen : (clients.filter fun c => c.id != id).length = clients.length
  · have hall := hkey.mp hlen
    have hd : deleteClient id clients = (false, clients) := by
      simp only [deleteClient]
      rw [if_pos hlen]
    refine ⟨?_, ?_, fun _ => ⟨by rw [hd], by rw [hd]⟩⟩
    · rw [hd]
      exact iff_of_false (by simp) fun ⟨c, hc, hcid⟩ => hall c hc hcid
    · rw [hd]
      exact List.find?_eq_none.mpr fun x hx hbeq =>
        hall x hx (by simpa using hbeq)
  · have hex : ∃ c ∈ clients, c.id = id := by
      by_contra hne
      push_neg at hne
      exact hlen (hkey.mpr hne)
    have hd : deleteClient id clients =
        (true, clients.filter fun c => c.id != id) := by
      simp only [deleteClient]
      rw [if_neg hlen]
    refine ⟨by rw [hd]; exact iff_of_true rfl hex, ?_, fun hne => absurd hex hne⟩
    rw [hd]
    exact List.find?_eq_none.mpr fun x hx hbeq => by
      have := (List.mem_filter.mp hx).2
      simp only [bne_iff_ne, decide_eq_true_eq] at this
      exact this (by simpa using hbeq)

/-- C5 (witness): deleting the one stored client succeeds and empties the
lookup; deleting a missing id is a no-op returning `false`. -/
theorem deleteClient_spec_witness :
    (deleteClient "client_5_i" [sampleClient]).1 = true ∧
    getClientById "client_5_i" (deleteClient "client_5_i" [sampleClient]).2 = none ∧
    (¬ ∃ c ∈ [sampleClient], c.id = "nope") ∧
    (deleteClient "nope" [sampleClient]).1 = false ∧
    (deleteClient "nope" [sampleClient]).2 = [sampleClient] := by
  refine ⟨(deleteClient_spec "client_5_i" [sampleClient]).1.mpr
      ⟨sampleClient, by decide, by decide⟩,
    (deleteClient_spec "client_5_i" [sampleClient]).2.1, by decide, ?_, ?_⟩
  · exact ((deleteClient_spec "nope" [sampleClient]).2.2 (by decide)).1
  · exact ((deleteClient_spec "nope" [sampleClient]).2.2 (by decide)).2

/-! ## C6 — updateClient with the empty field map -/

/-- C6: for a stored client, `updateClient` with the empty field map
replaces that client by a record identical in every field except the
`updatedAt` stamp, and leaves every other position of the collection
unchanged. -/
theorem updateClient_empty_spec (nowIso id : String) (clients : List Client)
    (c : Client) (hfound : getClientById id clients = some c) :
    (updateClient nowIso id {} clients).1 =
      some { c with updatedAt := some nowIso } ∧
    (updateClient nowIso id {} clients).2 =
      clients.set (clients.findIdx fun x => x.id == id)
        { c with updatedAt := some nowIso } ∧
    (∀ j, j ≠ (clients.findIdx fun x => x.id == id) →
      ((updateClient nowIso id {} clients).2).get? j = clients.get? j) ∧
    ((updateClient nowIso id {} clients).2).length = clients.length := by
  have hg : clients.get? (clients.findIdx fun x => x.id == id) = some c :=
    (get?_findIdx_eq_find? _ clients).trans hfound
  have hu : updateClient nowIso id {} clients =
      (some { c with updatedAt := some nowIso },
       clients.set (clients.findIdx fun x => x.id == id)
         { c with updatedAt := some nowIso }) := by
    simp only [updateClient]
    rw [hg]
    rfl
  refine ⟨by rw [hu], by rw [hu], ?_, by rw [hu]; exact List.length_set ..⟩
  intro j hj
  rw [hu, List.get?_eq_getElem?, List.get?_eq_getElem?]
  exact List.getElem?_set_ne (Ne.symm hj)

/-- C6 (witness): updating Omar with the empty map stamps `updatedAt` and
leaves Sara (position 0) untouched. -/
theorem updateClient_empty_spec_witness :
    getClientById "client_7_q" [sampleClient, sampleClient2] = some sampleClient2 ∧
    ((updateClient "2025-10-01T00:00:00.000Z" "client_7_q"
        {} [sampleClient, sampleClient2]).1 =
      some { sampleClient2 with updatedAt := some "2025-10-01T00:00:00.000Z" } ∧
    (updateClient "2025-10-01T00:00:00.000Z" "client_7_q"
        {} [sampleClient, sampleClient2]).2 =
      [sampleClient, sampleClient2].set
        ([sampleClient, sampleClient2].findIdx fun x => x.id == "client_7_q")
        { sampleClient2 with updatedAt := some "2025-10-01T00:00:00.000Z" } ∧
    (∀ j, j ≠ ([sampleClient, sampleClient2].findIdx fun x => x.id == "client_7_q") →
      ((updateClient "2025-10-01T00:00:00.000Z" "client_7_q"
          {} [sampleClient, sampleClient2]).2).get? j =
        [sampleClient, sampleClient2].get? j) ∧
    ((updateClient "2025-10-01T00:00:00.000Z" "client_7_q"
        {} [sampleClient, sampleClient2]).2).length =
      [sampleClient, sampleClient2].length) :=
  ⟨by decide,
   updateClient_empty_spec "2025-10-01T00:00:00.000Z" "client_7_q"
     [sampleClient, sampleClient2] sampleClient2 (by decide)⟩

/-! ## C10 — not-found updates perform no write -/

/-- C10: when no stored client carries the requested id, `updateClient` and
`addExerciseEntry` both return the `null` sentinel and leave the persisted
collection exactly unchanged (no `saveClients` call happens on that path). -/
theorem notFound_no_write_spec (now num exp : Nat) (nowIso clientId : String)
    (u : UpdateData) (e : EntryFields) (clients : List Client)
    (habs : ∀ c ∈ clients, c.id ≠ clientId) :
    updateClient nowIso clientId u clients = (none, clients) ∧
    addExerciseEntry now num exp nowIso clientId e clients = (none, clients) := by
  have hfind : clients.find? (fun c => c.id == clientId) = none :=
    List.find?_eq_none.mpr fun x hx hbeq => habs x hx (by simpa using hbeq)
  have hg : clients.get? (clients.findIdx fun c => c.id == clientId) = none :=
    (get?_findIdx_eq_find? _ clients).trans hfind
  constructor
  · simp only [updateClient]
    rw [hg]
  · simp only [addExerciseEntry, getClientById]
    rw [hfind]

/-- C10 (witness): the missing id `"nope"` leaves the one-client collection
untouched through both operations. -/
theorem notFound_no_write_spec_witness :
    (∀ c ∈ [sampleClient], c.id ≠ "nope") ∧
    updateClient "t0" "nope" {} [sampleClient] = (none, [sampleClient]) ∧
    addExerciseEntry 9 1 1 "t0" "nope" sampleEntryFields [sampleClient] =
      (none, [sampleClient]) :=
  ⟨by decide,
   (notFound_no_write_spec 9 1 1 "t0" "nope" {} sampleEntryFields
      [sampleClient] (by decide)).1,
   (notFound_no_write_spec 9 1 1 "t0" "nope" {} sampleEntryFields
      [sampleClient] (by decide)).2⟩

/-! ## C8 — id uniqueness across repository operations -/

theorem updateClient_map_id (nowIso id : String) (u : UpdateData)
    (clients : List Client) :
    ((updateClient nowIso id u clients).2).map Client.id =
      clients.map Client.id := by
  cases hg : clients.get? (clients.findIdx fun c => c.id == id) with
  | none =>
    simp only [updateClient]
    rw [hg]
  | some c =>
    simp only [updateClient]
    rw [hg]
    show (clients.set (clients.findIdx fun c => c.id == id)
      (mergeClient c u nowIso)).map Client.id = clients.map Client.id
    rw [List.map_set]
    have hid : (mergeClient c u nowIso).id = c.id := rfl
    rw [hid]
    apply set_get?_self
    rw [List.get?_eq_getElem?, List.getElem?_map, ← List.get?_eq_getElem?, hg]
    rfl

theorem addExerciseEntry_map_id (now num exp : Nat) (nowIso clientId : String)
    (e : EntryFields) (clients : List Client) :
    ((addExerciseEntry now num exp nowIso clientId e clients).2).map Client.id =
      clients.map Client.id := by
  cases hfind : getClientById clientId clients with
  | none =>
    simp only [addExerciseEntry]
    rw [hfind]
  | some c =>
    simp only [addExerciseEntry]
    rw [hfind]
    exact updateClient_map_id nowIso clientId _ clients

theorem deleteClient_state_sublist (id : String) (clients : List Client) :
    ((deleteClient id clients).2).Sublist clients := by
  simp only [deleteClient]
  split
  · exact List.Sublist.refl clients
  · exact List.filter_sublist clients

/-- C8 (counterexample): the claim fails for `addClient`: starting from a
collection with unique ids in which some client already carries the id
`"client_5_i"`, calling `addClient` at `Date.now() = 5`,
`Math.random() = 1/2` (there is no uniqueness check against existing ids)
produces a collection with a duplicated id. -/
theorem addClient_id_collision_breaks_uniqueness :
    idsNodup [sampleClient] ∧
    ¬ idsNodup
      (addClient 5 1 1 "2025-10-01T00:00:00.000Z" sampleFields [sampleClient]).2 := by
  constructor
  · show (List.map Client.id [sampleClient]).Nodup
    decide
  · show ¬ (List.map Client.id
      (addClient 5 1 1 "2025-10-01T00:00:00.000Z" sampleFields [sampleClient]).2).Nodup
    decide

/-- C8 (amended): id uniqueness is preserved unconditionally by
`updateClient`, `deleteClient` and `addExerciseEntry`, and by `addClient`
exactly under the proviso that the freshly generated id does not already
occur in the collection — which the generator ensures only
probabilistically. -/
theorem id_uniqueness_preservation_spec :
    (∀ (nowIso id : String) (u : UpdateData) (clients : List Client),
      idsNodup clients → idsNodup (updateClient nowIso id u clients).2) ∧
    (∀ (id : String) (clients : List Client),
      idsNodup clients → idsNodup (deleteClient id clients).2) ∧
    (∀ (now num exp : Nat) (nowIso clientId : String) (e : EntryFields)
      (clients : List Client), idsNodup clients →
      idsNodup (addExerciseEntry now num exp nowIso clientId e clients).2) ∧
    (∀ (now num exp : Nat) (nowIso : String) (fields : ClientFields)
      (clients : List Client), idsNodup clients →
      generateId now num exp ∉ clients.map Client.id →
      idsNodup (addClient now num exp nowIso fields clients).2) := by
  refine ⟨?_, ?_, ?_, ?_⟩
  · intro nowIso id u clients h
    show ((updateClient nowIso id u clients).2.map Client.id).Nodup
    rw [updateClient_map_id]
    exact h
  · intro id clients h
    exact ((deleteClient_state_sublist id clients).map Client.id).nodup h
  · intro now num exp nowIso clientId e clients h
    show ((addExerciseEntry now num exp nowIso clientId e clients).2.map
      Client.id).Nodup
    rw [addExerciseEntry_map_id]
    exact h
  · intro now num exp nowIso fields clients h hfresh
    show (((clients ++ [(addClient now num exp nowIso fields clients).1]).map
      Client.id)).Nodup
    rw [List.map_append]
    refine List.nodup_append.mpr ⟨h, List.nodup_singleton _, ?_⟩
    intro a ha hb
    simp only [List.map_cons, List.map_nil, List.mem_singleton] at hb
    have hb' : a = generateId now num exp := hb
    exact hfresh (hb' ▸ ha)

/-- C8 (witness): each preservation conjunct applied to a concrete
one-client collection. -/
theorem id_uniqueness_preservation_spec_witness :
    idsNodup [sampleClient] ∧
    generateId 7 1 1 ∉ [sampleClient].map Client.id ∧
    idsNodup (updateClient "t1" "client_5_i" {} [sampleClient]).2 ∧
    idsNodup (deleteClient "client_5_i" [sampleClient]).2 ∧
    idsNodup (addExerciseEntry 7 1 1 "t1" "client_5_i" sampleEntryFields
      [sampleClient]).2 ∧
    idsNodup (addClient 7 1 1 "t1" sampleFields [sampleClient]).2 :=
  ⟨by show (List.map Client.id [sampleClient]).Nodup; decide,
   by decide,
   id_uniqueness_preservation_spec.1 "t1" "client_5_i" {} [sampleClient]
     (by show (List.map Client.id [sampleClient]).Nodup; decide),
   id_uniqueness_preservation_spec.2.1 "client_5_i" [sampleClient]
     (by show (List.map Client.id [sampleClient]).Nodup; decide),
   id_uniqueness_preservation_spec.2.2.1 7 1 1 "t1" "client_5_i"
     sampleEntryFields [sampleClient]
     (by show (List.map Client.id [sampleClient]).Nodup; decide),
   id_uniqueness_preservation_spec.2.2.2 7 1 1 "t1" sampleFields [sampleClient]
     (by show (List.map Client.id [sampleClient]).Nodup; decide) (by decide)⟩

/-! ## C7 — form validation -/

/-- C7: the spec's valid input reports valid with an empty error map; the
spec's partial input (gender, goal, startDate absent) reports invalid with a
message recorded for each of the seven fields; and each field's rule is
checked independently — the message for a field is a function of that
field's raw value alone.  The validator is a pure Lean function, so it
mutates no state by construction. -/
theorem validateClientForm_spec :
    (validateClientForm validFormVals).isValid = true ∧
    (validateClientForm validFormVals).errors = {} ∧
    (validateClientForm invalidFormVals).isValid = false ∧
    ((validateClientForm invalidFormVals).errors.fullName).isSome = true ∧
    ((validateClientForm invalidFormVals).errors.age).isSome = true ∧
    ((validateClientForm invalidFormVals).errors.gender).isSome = true ∧
    ((validateClientForm invalidFormVals).errors.email).isSome = true ∧
    ((validateClientForm invalidFormVals).errors.phone).isSome = true ∧
    ((validateClientForm invalidFormVals).errors.goal).isSome = true ∧
    ((validateClientForm invalidFormVals).errors.startDate).isSome = true ∧
    (∀ f g : FormVals, f.fullName = g.fullName →
      (validateClientForm f).errors.fullName =
        (validateClientForm g).errors.fullName) ∧
    (∀ f g : FormVals, f.age = g.age →
      (validateClientForm f).errors.age = (validateClientForm g).errors.age) ∧
    (∀ f g : FormVals, f.gender = g.gender →
      (validateClientForm f).errors.gender =
        (validateClientForm g).errors.gender) ∧
    (∀ f g : FormVals, f.email = g.email →
      (validateClientForm f).errors.email =
        (validateClientForm g).errors.email) ∧
    (∀ f g : FormVals, f.phone = g.phone →
      (validateClientForm f).errors.phone =
        (validateClientForm g).errors.phone) ∧
    (∀ f g : FormVals, f.goal = g.goal →
      (validateClientForm f).errors.goal = (validateClientForm g).errors.goal) ∧
    (∀ f g : FormVals, f.startDate = g.startDate →
      (validateClientForm f).errors.startDate =
        (validateClientForm g).errors.startDate) := by
  refine ⟨by decide, by decide, by decide, by decide, by decide, by decide,
    by decide, by decide, by decide, by decide, ?_, ?_, ?_, ?_, ?_, ?_, ?_⟩
  · intro f g h
    show fullNameRule f.fullName = fullNameRule g.fullName
    rw [h]
  · intro f g h
    show ageRule f.age = ageRule g.age
    rw [h]
  · intro f g h
    show genderRule f.gender = genderRule g.gender
    rw [h]
  · intro f g h
    show emailRule f.email = emailRule g.email
    rw [h]
  · intro f g h
    show phoneRule f.phone = phoneRule g.phone
    rw [h]
  · intro f g h
    show goalRule f.goal = goalRule g.goal
    rw [h]
  · intro f g h
    show startDateRule f.startDate = startDateRule g.startDate
    rw [h]

/-- C7 (witness): the independence conjuncts applied at the two concrete
inputs (their hypotheses discharged by `rfl`). -/
theorem validateClientForm_spec_witness :
    validFormVals.fullName = validFormVals.fullName ∧
    invalidFormVals.age = invalidFormVals.age ∧
    (validateClientForm validFormVals).errors.fullName =
      (validateClientForm validFormVals).errors.fullName ∧
    (validateClientForm invalidFormVals).errors.age =
      (validateClientForm invalidFormVals).errors.age :=
  ⟨rfl, rfl,
   validateClientForm_spec.2.2.2.2.2.2.2.2.2.2.1 validFormVals validFormVals rfl,
   validateClientForm_spec.2.2.2.2.2.2.2.2.2.2.2.1 invalidFormVals
     invalidFormVals rfl⟩

/-! ## C3 — suggestion fallback on failure -/

/-- C3 (counterexample): the claim's parenthetical identifies the Weight
Loss fallback table with "the default table when the goal is unrecognized",
but `getFallbackExercises` on an unrecognized goal returns the General
Fitness table, which differs from the Weight Loss one. -/
theorem fallback_default_not_weight_loss :
    getFallbackExercises (some "Yoga") = fallbackGeneralFitness ∧
    getFallbackExercises (some "Yoga") ≠ fallbackWeightLoss := by
  refine ⟨rfl, ?_⟩
  decide

/-- C3 (amended): whenever the catalog fetch fails (network error, non-ok
status, or an empty normalized pool), `suggest("Weight Loss", 5)` returns
`success: false`, the non-empty user-facing error string, and exactly 5
entries drawn only from the Weight Loss fallback table, obtained by the same
shuffle; a result is always returned, never a hard error.  (The default
table for an unrecognized goal is the General Fitness table, not the Weight
Loss one.) -/
theorem suggest_weight_loss_failure_spec (strip : String → String)
    (randIdx : Nat → Nat) (outcome : FetchOutcome)
    (hfail : outcome = FetchOutcome.networkError ∨
      (∃ st, outcome = FetchOutcome.httpError st) ∨
      (∃ data, outcome = FetchOutcome.success data ∧
        normalizePool strip data = [])) :
    (fetchSuggestedExercises strip randIdx outcome
      (some "Weight Loss") 5).success = false ∧
    (fetchSuggestedExercises strip randIdx outcome
      (some "Weight Loss") 5).error =
      some "Unable to load suggested exercises right now." ∧
    ("Unable to load suggested exercises right now." : String) ≠ "" ∧
    (fetchSuggestedExercises strip randIdx outcome
      (some "Weight Loss") 5).exercises.length = 5 ∧
    (∀ e ∈ (fetchSuggestedExercises strip randIdx outcome
      (some "Weight Loss") 5).exercises, e ∈ fallbackWeightLoss) ∧
    (fetchSuggestedExercises strip randIdx outcome
      (some "Weight Loss") 5).exercises =
      (shuffleArray randIdx fallbackWeightLoss).take 5 := by
  have hfb : fetchSuggestedExercises strip randIdx outcome
      (some "Weight Loss") 5 =
      { success := false
        exercises := (shuffleArray randIdx fallbackWeightLoss).take 5
        error := some "Unable to load suggested exercises right now." } := by
    rcases hfail with h | ⟨st, h⟩ | ⟨data, h, hempty⟩ <;> subst h
    · rfl
    · rfl
    · simp only [fetchSuggestedExercises]
      rw [hempty]
      rfl
  refine ⟨by rw [hfb], by rw [hfb], by decide, ?_, ?_, by rw [hfb]⟩
  · rw [hfb]
    show ((shuffleArray randIdx fallbackWeightLoss).take 5).length = 5
    rw [shuffle_take_length]
    rfl
  · rw [hfb]
    exact shuffle_take_mem randIdx fallbackWeightLoss 5

/-- C3 (witness): the failure theorem applied to a concrete network error
with the identity markup-stripper and the all-zeros random stream. -/
theorem suggest_weight_loss_failure_spec_witness :
    (fetchSuggestedExercises (fun s => s) (fun _ => 0)
      FetchOutcome.networkError (some "Weight Loss") 5).success = false ∧
    (fetchSuggestedExercises (fun s => s) (fun _ => 0)
      FetchOutcome.networkError (some "Weight Loss") 5).error =
      some "Unable to load suggested exercises right now." ∧
    ("Unable to load suggested exercises right now." : String) ≠ "" ∧
    (fetchSuggestedExercises (fun s => s) (fun _ => 0)
      FetchOutcome.networkError (some "Weight Loss") 5).exercises.length = 5 ∧
    (∀ e ∈ (fetchSuggestedExercises (fun s => s) (fun _ => 0)
      FetchOutcome.networkError (some "Weight Loss") 5).exercises,
      e ∈ fallbackWeightLoss) ∧
    (fetchSuggestedExercises (fun s => s) (fun _ => 0)
      FetchOutcome.networkError (some "Weight Loss") 5).exercises =
      (shuffleArray (fun _ => 0) fallbackWeightLoss).take 5 :=
  suggest_weight_loss_failure_spec (fun s => s) (fun _ => 0)
    FetchOutcome.networkError (Or.inl rfl)

/-! ## C4 — suggestion success path -/

/-- C4: when the catalog response normalizes to a pool of at least 5
distinct named records, `suggest(_, 5)` returns `success: true` and exactly
the first 5 elements of the Fisher–Yates shuffle of the full pool (the loop
from the last index down to 1 swapping position `i` with a drawn position
`randIdx i ∈ [0..i]`): 5 entries, pairwise distinct, each drawn from the
normalized pool — a subset without replacement. -/
theorem suggest_success_spec (strip : String → String) (randIdx : Nat → Nat)
    (data : ApiData) (goal : Option String)
    (hlen : 5 ≤ (normalizePool strip data).length)
    (hnd : (normalizePool strip data).Nodup) :
    (fetchSuggestedExercises strip randIdx (FetchOutcome.success data)
      goal 5).success = true ∧
    (fetchSuggestedExercises strip randIdx (FetchOutcome.success data)
      goal 5).exercises =
      (shuffleArray randIdx (normalizePool strip data)).take 5 ∧
    (fetchSuggestedExercises strip randIdx (FetchOutcome.success data)
      goal 5).exercises.length = 5 ∧
    (fetchSuggestedExercises strip randIdx (FetchOutcome.success data)
      goal 5).exercises.Nodup ∧
    (∀ e ∈ (fetchSuggestedExercises strip randIdx (FetchOutcome.success data)
      goal 5).exercises, e ∈ normalizePool strip data) := by
  have hpos : (normalizePool strip data).length > 0 := by omega
  have hr : fetchSuggestedExercises strip randIdx (FetchOutcome.success data)
      goal 5 =
      { success := true
        exercises := (shuffleArray randIdx (normalizePool strip data)).take 5
        error := none } := by
    simp only [fetchSuggestedExercises]
    rw [if_pos hpos]
  refine ⟨by rw [hr], by rw [hr], ?_, ?_, ?_⟩
  · rw [hr]
    show ((shuffleArray randIdx (normalizePool strip data)).take 5).length = 5
    rw [shuffle_take_length]
    omega
  · rw [hr]
    exact shuffle_take_nodup randIdx _ 5 hnd
  · rw [hr]
    exact shuffle_take_mem randIdx _ 5

/-- C4 (witness): the success theorem applied to the concrete catalog
response normalizing to five distinct records. -/
theorem suggest_success_spec_witness :
    5 ≤ (normalizePool (fun s => s) sampleApiData).length ∧
    (normalizePool (fun s => s) sampleApiData).Nodup ∧
    ((fetchSuggestedExercises (fun s => s) (fun _ => 0)
      (FetchOutcome.success sampleApiData) (some "Muscle Gain") 5).success = true ∧
    (fetchSuggestedExercises (fun s => s) (fun _ => 0)
      (FetchOutcome.success sampleApiData) (some "Muscle Gain") 5).exercises =
      (shuffleArray (fun _ => 0) (normalizePool (fun s => s) sampleApiData)).take 5 ∧
    (fetchSuggestedExercises (fun s => s) (fun _ => 0)
      (FetchOutcome.success sampleApiData) (some "Muscle Gain") 5).exercises.length = 5 ∧
    (fetchSuggestedExercises (fun s => s) (fun _ => 0)
      (FetchOutcome.success sampleApiData) (some "Muscle Gain") 5).exercises.Nodup ∧
    (∀ e ∈ (fetchSuggestedExercises (fun s => s) (fun _ => 0)
      (FetchOutcome.success sampleApiData) (some "Muscle Gain") 5).exercises,
      e ∈ normalizePool (fun s => s) sampleApiData)) :=
  ⟨by decide, by decide,
   suggest_success_spec (fun s => s) (fun _ => 0) sampleApiData
     (some "Muscle Gain") (by decide) (by decide)⟩

end FitCRM
